import Mathlib

set_option maxRecDepth 100000

/-!
# Verification of `kernel/common/printk.c` (DragonOS)

A shallow embedding of the format-string interpreter (`vsprintf`, `write_num`),
the cursor model (`auto_newline`, the character loop of `printk_color`) and the
glyph renderer's write pattern (`putchar`), translated line by line from
`src/kernel/common/printk.c`.  Machine integers are modelled as `Int`/`Nat`
with explicit two's-complement wrapping where a C conversion occurs.
Characters are Lean `Char`s (all byte values involved are < 256), the output
buffer is a `List Char`, and the variadic argument area is a list of 64-bit
slots (the x86-64 System V calling convention promotes every variadic integer
argument to one 64-bit slot; `va_arg` of a narrower type reads the low bits of
a slot).  Undefined behaviour that the claims depend on (calling `strlen` on a
null pointer) is modelled by an `Option`: `none` means the execution ran into
undefined behaviour.
-/

/-- Two's-complement wrap of an integer into the signed 64-bit range
`[-2^63, 2^63)`, as performed by C arithmetic on `long long`. -/
def wrap64 (z : Int) : Int :=
  (z + 2 ^ 63) % 2 ^ 64 - 2 ^ 63

/-- Two's-complement wrap into the signed 32-bit range `[-2^31, 2^31)`,
as performed by C arithmetic on `int`. -/
def wrap32 (z : Int) : Int :=
  (z + 2 ^ 31) % 2 ^ 32 - 2 ^ 31

/-- Reading a 64-bit argument slot as a C `long long` / conversion of an
unsigned 64-bit value to `long long` (two's complement reinterpretation). -/
def toInt64 (n : Nat) : Int :=
  wrap64 (n : Int)

/-- `va_arg(args, int)` on x86-64: the low 32 bits of the slot, sign-extended. -/
def toInt32 (n : Nat) : Int :=
  wrap32 ((n % 2 ^ 32 : Nat) : Int)

/-- `va_arg(args, unsigned int)` on x86-64: the low 32 bits of the slot. -/
def toUns32 (n : Nat) : Int :=
  ((n % 2 ^ 32 : Nat) : Int)

/-- `va_arg(args, unsigned long long)`: the full 64-bit slot. -/
def toUns64 (n : Nat) : Int :=
  ((n % 2 ^ 64 : Nat) : Int)

/-- The format-state bitmap held in the local `flags` variable of `vsprintf`.
The bit constants (`LEFT`, `PLUS`, `SPACE`, `SPECIAL`, `PAD_ZERO`, `SIGN`,
`SMALL`) come from `printk.h`, which is not part of the sources; they are
distinct bits of one `int`, so the bitmap is modelled as a structure of
booleans, one per bit. -/
structure Flags where
  left : Bool
  plus : Bool
  spaceFlag : Bool
  special : Bool
  padZero : Bool
  sign : Bool
  small : Bool
deriving DecidableEq, Repr

/-- The all-clear bitmap: `flags = 0`. -/
def flags0 : Flags :=
  ⟨false, false, false, false, false, false, false⟩

/-- Modelled from the spec: `EPOS_OVERFLOW` is the position-overflow status
code from `printk.h` (not in the sources); §7 calls it "a sentinel status
code", so it is a fixed nonzero value. -/
def EPOS_OVERFLOW : Int := 1

/-- Modelled from the spec: `BLACK` is a colour constant from an external
header (§1 treats colour constants as external collaborators); its numeric
value is irrelevant to every claim. -/
def BLACK : Nat := 0

/-- `struct screen_info` (the global `pos`). -/
structure ScreenInfo where
  width : Int
  height : Int
  char_size_x : Int
  char_size_y : Int
  max_x : Int
  max_y : Int
  x : Int
  y : Int
  FB_address : Nat
  FB_length : Int
deriving DecidableEq, Repr

/-- `calculate_max_charNum`: `return len / size;` (C `int` division truncates
toward zero). -/
def calculate_max_charNum (len size : Int) : Int :=
  Int.tdiv len size

/-- `init_printk`: fills the global `pos` and returns `0`. -/
def init_printk (width height : Int) (FB_address : Nat)
    (FB_length char_size_x char_size_y : Int) : ScreenInfo × Int :=
  (⟨width, height, char_size_x, char_size_y,
    calculate_max_charNum width char_size_x,
    calculate_max_charNum height char_size_y,
    0, 0, FB_address, FB_length⟩, 0)

/-- `set_printk_pos`: bounds-check the requested cell, fail with
`EPOS_OVERFLOW` without mutating `pos`, else store the new cursor. -/
def set_printk_pos (x y : Int) (pos : ScreenInfo) : Int × ScreenInfo :=
  if ¬((x ≥ 0 ∧ x ≤ pos.max_x) ∧ (y ≥ 0 ∧ y ≤ pos.max_y)) then
    (EPOS_OVERFLOW, pos)
  else
    (0, { pos with x := x, y := y })

/-- Modelled from the spec: `is_digit` is a macro from `printk.h` (not in the
sources); §4.1 step 2 parses "a literal decimal integer", so it tests for the
characters `0`–`9`. -/
def is_digit (c : Char) : Bool :=
  '0' ≤ c ∧ c ≤ '9'

/-- `skip_and_atoi`: consume a run of digits, accumulating
`ans = ans * 10 + (**s) - '0'` in C `int` arithmetic; returns the value and
the remaining format text. -/
def skip_and_atoi : List Char → Int → Int × List Char
  | [], ans => (ans, [])
  | c :: rest, ans =>
    if is_digit c then
      skip_and_atoi rest (wrap32 (ans * 10 + ((c.toNat : Int) - ('0'.toNat : Int))))
    else
      (ans, c :: rest)

/-- `auto_newline`: wrap the cursor after an advance — a column past `max_x`
starts a new row, and a row past `max_y` is reset to row 0 (overwrite, no
scroll). -/
def auto_newline (pos : ScreenInfo) : ScreenInfo :=
  let pos1 := if pos.x > pos.max_x then { pos with x := 0, y := pos.y + 1 } else pos
  if pos1.y > pos1.max_y then { pos1 with y := 0 } else pos1

/-- The upper-case digit table `"0123456789ABCDEFGHIJKLMNOPQRSTUVWXYZ"`. -/
def digitsUpper : List Char :=
  "0123456789ABCDEFGHIJKLMNOPQRSTUVWXYZ".toList

/-- The lower-case digit table, selected by the `SMALL` flag. -/
def digitsLower : List Char :=
  "0123456789abcdefghijklmnopqrstuvwxyz".toList

/-- Modelled from the spec: `ABS` is a macro from `printk.h` (not in the
sources); §4.2 says "compute the absolute magnitude".  The negation is C
`long long` negation, hence wraps at `-2^63`. -/
def ABS (x : Int) : Int :=
  if x > 0 then x else wrap64 (-x)

/-- The digit-extraction loop of `write_num`:
`while (num > 0) { tmp_num[js_num++] = digits[num % base]; num /= base; }`,
least-significant digit first.  `fuel` bounds the iteration count; with
`base ≥ 2` a fuel of `n` always suffices. -/
def digitLoopF (digits : List Char) (base : Nat) : Nat → Nat → List Char
  | 0, _ => []
  | _, 0 => []
  | fuel + 1, n + 1 =>
    digits.getD ((n + 1) % base) ' ' :: digitLoopF digits base fuel ((n + 1) / base)

/-- Digits of `n` in `base`, least-significant first (empty for `n = 0`;
`write_num` special-cases zero before the loop). -/
def digitLoop (digits : List Char) (base : Nat) (n : Nat) : List Char :=
  digitLoopF digits base n n

/-- `while (field_width-- > 0) *str++ = c;` — emits `max field_width 0`
copies of `c` and returns the final (decremented) value of `field_width`. -/
def whileDec (field_width : Int) (c : Char) : List Char × Int :=
  (List.replicate field_width.toNat c,
   if 0 ≤ field_width then -1 else field_width - 1)

/-- `write_num`: convert `num` (a C `long long`) to a digit string in `base`,
applying sign, `#`-prefix, precision zeros and field-width padding exactly as
the source does.  Returns `none` for an unsupported base (the C code returns
the null pointer there). -/
def write_num (str : List Char) (num0 base field_width0 precision0 : Int)
    (flags0 : Flags) : Option (List Char) :=
  if base < 2 ∨ base > 36 then none
  else
    let digits := if flags0.small then digitsLower else digitsUpper
    let flags := if flags0.left then { flags0 with padZero := false } else flags0
    let pad : Char := if flags.padZero then '0' else ' '
    let signOpt : Option Char :=
      if flags.sign ∧ num0 < 0 then some '-'
      else if flags.plus then some '+'
      else if flags.spaceFlag then some ' '
      else none
    let num1 : Int := if flags.sign ∧ num0 < 0 then wrap64 (-num0) else num0
    let fw1 : Int := if signOpt.isSome then field_width0 - 1 else field_width0
    let fw2 : Int :=
      if flags.special then
        if base = 16 then fw1 - 2 else if base = 8 then fw1 - 1 else fw1
      else fw1
    let tmp_num : List Char :=
      if num1 = 0 then ['0'] else digitLoop digits base.toNat (ABS num1).toNat
    let js_num : Int := (tmp_num.length : Int)
    let precision : Int := if js_num > precision0 then js_num else precision0
    let fw3 : Int := fw2 - precision
    let padA := if ¬(flags.left ∨ flags.padZero) then whileDec fw3 ' ' else ([], fw3)
    let signPart : List Char := match signOpt with | some c => [c] | none => []
    let prefixPart : List Char :=
      if flags.special then
        if base = 16 then ['0', digits.getD 33 ' ']
        else if base = 8 then [digits.getD 24 ' ']
        else []
      else []
    let padB := if ¬flags.left then whileDec padA.2 pad else ([], padA.2)
    let zeros : List Char := List.replicate (precision - js_num).toNat '0'
    let padC := whileDec padB.2 ' '
    some (str ++ padA.1 ++ signPart ++ prefixPart ++ padB.1 ++ zeros ++
      tmp_num.reverse ++ padC.1)

/-- One 64-bit variadic argument slot: an integer/pointer/character pattern,
or a `char *` (with `none` for the null pointer). -/
inductive Arg where
  | val : Nat → Arg
  | str : Option (List Char) → Arg
deriving DecidableEq, Repr

/-- `va_arg` for an integer/pointer slot; `none` models the undefined
behaviour of reading past the argument list or with the wrong type. -/
def vaFetch : List Arg → Option (Nat × List Arg)
  | Arg.val n :: rest => some (n, rest)
  | _ => none

/-- `va_arg` for a `char *` slot. -/
def vaFetchStr : List Arg → Option (Option (List Char) × List Arg)
  | Arg.str s :: rest => some (s, rest)
  | _ => none

/-- `strlen`: length of the pointed-to string; `strlen` on the null pointer
dereferences address 0, which is undefined behaviour (`none`). -/
def strlen : Option (List Char) → Option Nat
  | none => none
  | some l => some l.length

/-- The flag-parsing loop of `vsprintf` (`while (flag_tmp) switch (*fmt)`):
consumes `- + space # 0` characters, returns the updated bitmap, the
remaining format text, and the `flag_break` flag (set when the template ends
inside the directive, i.e. `*fmt == '\0'`). -/
def flagLoop : List Char → Flags → Flags × List Char × Bool
  | [], flags => (flags, [], true)
  | c :: rest, flags =>
    if c = '-' then flagLoop rest { flags with left := true }
    else if c = '+' then flagLoop rest { flags with plus := true }
    else if c = ' ' then flagLoop rest { flags with spaceFlag := true }
    else if c = '#' then flagLoop rest { flags with special := true }
    else if c = '0' then flagLoop rest { flags with padZero := true }
    else (flags, c :: rest, false)

/-- `while (--field_width > 0) *str++ = ' ';` (the `%c` padding loop):
emits `max (field_width - 1) 0` spaces and returns the decremented counter. -/
def preDec (field_width : Int) : List Char × Int :=
  (List.replicate (field_width - 1).toNat ' ',
   if 1 ≤ field_width then 0 else field_width - 1)

/-- The `%s` padding loop `while (len < field_width--) *str++ = ' ';`:
emits `max (field_width - len) 0` spaces and returns the decremented
counter. -/
def whileLtDec (len field_width : Int) : List Char × Int :=
  (List.replicate (field_width - len).toNat ' ',
   if len ≤ field_width then len - 1 else field_width - 1)

/-- Reading `fmt[i]` relative to the remaining format text; reading at or past
the terminating `'\0'` yields `'\0'` (the byte after the terminator is
strictly outside the string object; no claim depends on it). -/
def fmtAt (fmt : List Char) (i : Nat) : Char :=
  fmt.getD i (Char.ofNat 0)

/-- The width/precision/qualifier parsing of one directive (the code between
the flag loop and the conversion `switch`).  Takes the format text right
after the flags, the argument list, the parsed bitmap and the incoming value
of the `qualifier` variable; returns the remaining text positioned at the
conversion character, the arguments, field width, precision, updated bitmap
and updated qualifier (`none` on argument-list misuse by `%*`). -/
def parseWidthPrec (rest1 : List Char) (args : List Arg) (flags1 : Flags)
    (qual : Char) :
    Option (List Char × List Arg × Int × Int × Flags × Char) :=
  -- field width: `*` pulls an int argument, a digit run is parsed literally,
  -- otherwise the width stays -1 (unspecified); a negative parsed literal
  -- (only reachable through 32-bit overflow) is negated and forces LEFT
  match
    (if fmtAt rest1 0 = '*' then
      match vaFetch args with
      | none => none
      | some (n, args') => some (toInt32 n, rest1.drop 1, args', flags1)
    else if is_digit (fmtAt rest1 0) then
      let p := skip_and_atoi rest1 0
      if p.1 < 0 then some (-p.1, p.2, args, { flags1 with left := true })
      else some (p.1, p.2, args, flags1)
    else some (-1, rest1, args, flags1) :
      Option (Int × List Char × List Arg × Flags)) with
  | none => none
  | some (field_width, rest2, args2, flags2) =>
    -- precision: a `.` followed by `*` or digits; else stays -1
    match
      (if fmtAt rest2 0 = '.' then
        let r := rest2.drop 1
        if fmtAt r 0 = '*' then
          match vaFetch args2 with
          | none => none
          | some (n, args') => some (toInt32 n, r.drop 1, args')
        else if is_digit (fmtAt r 0) then
          let p := skip_and_atoi r 0
          some (p.1, p.2, args2)
        else some (-1, r, args2)
      else some (-1, rest2, args2) :
        Option (Int × List Char × List Arg)) with
    | none => none
    | some (precision, rest3, args3) =>
      -- length qualifier: `h/l/L/Z`; otherwise the `qualifier` variable
      -- keeps its previous value (it is never re-initialized per directive)
      let isQ := fmtAt rest3 0 = 'h' ∨ fmtAt rest3 0 = 'l' ∨
                 fmtAt rest3 0 = 'L' ∨ fmtAt rest3 0 = 'Z'
      let qual1 := if isQ then fmtAt rest3 0 else qual
      let rest4 := if isQ then rest3.drop 1 else rest3
      -- `if (qualifier == 'l' && *fmt == 'l', *(fmt + 1) == 'd') ++fmt;`
      -- — the comma operator makes the condition just `*(fmt+1) == 'd'`
      let rest5 := if fmtAt rest4 1 = 'd' then rest4.drop 1 else rest4
      some (rest5, args3, field_width, precision, flags2, qual1)

/-- The conversion `switch (*fmt)` of one directive, followed by the `++fmt`
of the enclosing `for` loop: returns the extended output buffer, the format
text after the directive and the remaining arguments (`none` on undefined
behaviour; the `%f` branch — floating point — is outside the embedding). -/
def vsDispatch (qual : Char) (rest : List Char) (args : List Arg)
    (acc : List Char) (field_width precision : Int) (flags : Flags) :
    Option (List Char × List Char × List Arg) :=
  match rest with
  | [] =>
    -- `*fmt == '\0'` at the switch: the default branch emits `%`, then
    -- `--fmt` cancels the loop increment and the loop exits at the terminator
    some (acc ++ ['%'], [], args)
  | c :: rest' =>
    if c = '%' then some (acc ++ ['%'], rest', args)
    else if c = 'c' then
      match vaFetch args with
      | none => none
      | some (n, args') =>
        let padded := if ¬flags.left then preDec field_width else ([], field_width)
        let tail := preDec padded.2
        some (acc ++ padded.1 ++ [Char.ofNat (n % 2 ^ 32 % 256)] ++ tail.1,
          rest', args')
    else if c = 's' then
      match vaFetchStr args with
      | none => none
      | some (s0, args') =>
        -- `if (!s) s = '\0';` — the character literal '\0' is the integer 0,
        -- i.e. the null pointer again, so the guard leaves `s` null
        let s1 := if s0 = none then (none : Option (List Char)) else s0
        match strlen s1 with
        | none => none                   -- strlen(NULL): undefined behaviour
        | some len0 =>
          let len : Int :=
            if precision < 0 then (len0 : Int)
            else if (len0 : Int) > precision then precision
            else (len0 : Int)
          let padded :=
            if ¬flags.left then whileLtDec len field_width
            else ([], field_width)
          let tail := whileLtDec len padded.2
          some (acc ++ padded.1 ++ (s1.getD []).take len.toNat ++ tail.1,
            rest', args')
    else if c = 'o' ∨ c = 'O' then
      let flagsO :=
        if c = 'o' then { flags with small := true, special := true }
        else { flags with special := true }
      match vaFetch args with
      | none => none
      | some (n, args') =>
        let v : Int := if qual = 'l' then toInt64 n else toInt32 n
        match write_num acc v 8 field_width precision flagsO with
        | none => none
        | some acc' => some (acc', rest', args')
    else if c = 'p' then
      -- `if (field_width == 0) { field_width = 2 * sizeof(void *);
      --  flags |= PAD_ZERO; }` — sizeof(void *) is 8 on the x86-64 target
      let fwp : Int := if field_width = 0 then 2 * 8 else field_width
      let flagsP :=
        if field_width = 0 then { flags with padZero := true } else flags
      match vaFetch args with
      | none => none
      | some (n, args') =>
        match write_num acc (toInt64 n) 16 fwp precision flagsP with
        | none => none
        | some acc' => some (acc', rest', args')
    else if c = 'x' ∨ c = 'X' then
      -- note: the `flags |= SPECIAL` of the `X` case is commented out
      let flagsX := if c = 'x' then { flags with small := true } else flags
      match vaFetch args with
      | none => none
      | some (n, args') =>
        let v : Int := if qual = 'l' then toInt64 n else toInt32 n
        match write_num acc v 16 field_width precision flagsX with
        | none => none
        | some acc' => some (acc', rest', args')
    else if c = 'i' ∨ c = 'd' then
      match vaFetch args with
      | none => none
      | some (n, args') =>
        let v : Int := if qual = 'l' then toInt64 n else toInt32 n
        match write_num acc v 10 field_width precision
            { flags with sign := true } with
        | none => none
        | some acc' => some (acc', rest', args')
    else if c = 'u' then
      match vaFetch args with
      | none => none
      | some (n, args') =>
        -- the unsigned value is passed to `write_num`'s signed `long long`
        -- parameter, hence the 64-bit two's-complement reinterpretation
        let v : Int := if qual = 'l' then wrap64 (toUns64 n) else toUns32 n
        match write_num acc v 10 field_width precision flags with
        | none => none
        | some acc' => some (acc', rest', args')
    else if c = 'n' then
      -- consumes the pointer argument and stores the running length through
      -- it; the store mutates caller memory (outside this model) and emits
      -- nothing
      match vaFetch args with
      | none => none
      | some (_, args') => some (acc, rest', args')
    else if c = 'f' then
      none  -- floating-point path (write_float_point_num): not modelled
    else
      -- unrecognized conversion character: emit `%` and the character
      some (acc ++ ['%', c], rest', args)

/-- The main loop of `vsprintf`, one recursive call per iteration of
`for (; *fmt; ++fmt)`.  `qual` is the local variable `qualifier`: it is
declared without an initializer and is only ever assigned inside a directive,
so its value entering the loop is indeterminate and it keeps its last value
across directives.  `fuel` bounds the iteration count; `fmt.length + 1`
always suffices since every iteration consumes at least one character of
`fmt`. -/
def vsLoop : Nat → Char → List Char → List Arg → List Char → Option (List Char)
  | 0, _, _, _, _ => none
  | _ + 1, _, [], _, acc => some acc
  | fuel + 1, qual, c :: fmtRest, args, acc =>
    if c ≠ '%' then vsLoop fuel qual fmtRest args (acc ++ [c])
    else
      -- `field_width = flags = 0;` then the flag loop (starting after `%`)
      match flagLoop fmtRest flags0 with
      | (_, _, true) => some acc    -- flag_break: template ended, break out
      | (flags1, rest1, false) =>
        match parseWidthPrec rest1 args flags1 qual with
        | none => none
        | some (rest5, args3, field_width, precision, flags2, qual1) =>
          match vsDispatch qual1 rest5 args3 acc field_width precision flags2 with
          | none => none
          | some (acc', restNext, argsNext) =>
            vsLoop fuel qual1 restNext argsNext acc'

/-- `vsprintf buf fmt args` with an indeterminate initial `qualifier` value
`qual0`: formats `fmt` with `args` and returns the buffer contents (`none` on
undefined behaviour). -/
def vsprintf (qual0 : Char) (fmt : List Char) (args : List Arg) :
    Option (List Char) :=
  vsLoop (fmt.length + 1) qual0 fmt args []

/-- One framebuffer glyph-draw performed by `putchar`: the pixel origin
(`x`/`y` are the arguments `pos.x * pos.char_size_x` / `pos.y *
pos.char_size_y`), the colours and the character. -/
structure RenderCall where
  x_px : Int
  y_px : Int
  FRcolor : Nat
  BKcolor : Nat
  ch : Char
deriving DecidableEq, Repr

/-- The framebuffer offsets (in pixels from `fb`) written by one `putchar`
call: `addr = fb + Xsize * (y + i) + x` and then one write per `j`, for
`i < char_size_y` rows and `j < char_size_x` columns. -/
def putchar_offsets (Xsize x y char_size_x char_size_y : Int) : List Int :=
  (List.range char_size_y.toNat).flatMap fun (i : Nat) =>
    (List.range char_size_x.toNat).map fun (j : Nat) =>
      Xsize * (y + (i : Int)) + x + (j : Int)

/-- The body of the `'\t'` branch of `printk_color`: `space_to_print`
iterations of a background space glyph, cursor advance and wrap. -/
def tabIter : Nat → ScreenInfo → ScreenInfo × List RenderCall
  | 0, pos => (pos, [])
  | n + 1, pos =>
    let call : RenderCall :=
      ⟨pos.x * pos.char_size_x, pos.y * pos.char_size_y, BLACK, BLACK, ' '⟩
    let pos1 := auto_newline { pos with x := pos.x + 1 }
    let next := tabIter n pos1
    (next.1, call :: next.2)

/-- One iteration of the character loop of `printk_color`: interpret one
character of the formatted buffer, returning the new cursor state and the
glyph draws performed. -/
def printkStep (FRcolor BKcolor : Nat) (c : Char) (pos : ScreenInfo) :
    ScreenInfo × List RenderCall :=
  if c = Char.ofNat 10 then
    -- '\n': new line, no wrap check
    ({ pos with x := 0, y := pos.y + 1 }, [])
  else if c = Char.ofNat 9 then
    -- '\t': advance to the next multiple-of-8 column
    tabIter (8 - Int.tmod pos.x 8).toNat pos
  else if c = Char.ofNat 8 then
    -- '\b': step back; from column -1 move to the previous row, resetting to
    -- the origin when the decremented row is <= 0; render a space, advance
    let pos1 := { pos with x := pos.x - 1 }
    let pos2 :=
      if pos1.x < 0 then
        let posY := { pos1 with y := pos1.y - 1 }
        if posY.y ≤ 0 then { posY with x := 0, y := 0 }
        else { posY with x := posY.max_x }
      else pos1
    let call : RenderCall :=
      ⟨pos2.x * pos2.char_size_x, pos2.y * pos2.char_size_y, FRcolor, BKcolor, ' '⟩
    (auto_newline { pos2 with x := pos2.x + 1 }, [call])
  else
    let call : RenderCall :=
      ⟨pos.x * pos.char_size_x, pos.y * pos.char_size_y, FRcolor, BKcolor, c⟩
    (auto_newline { pos with x := pos.x + 1 }, [call])

/-- The character loop of `printk_color` over the whole formatted buffer. -/
def printkChars (FRcolor BKcolor : Nat) :
    List Char → ScreenInfo → ScreenInfo × List RenderCall
  | [], pos => (pos, [])
  | c :: cs, pos =>
    let first := printkStep FRcolor BKcolor c pos
    let next := printkChars FRcolor BKcolor cs first.1
    (next.1, first.2 ++ next.2)

/-- `printk_color FRcolor BKcolor fmt args` on screen state `pos`:
format via `vsprintf` (with indeterminate initial qualifier `qual0`), then
render the buffer character by character.  Returns the final screen state,
the glyph draws and the return value `i` (the number of characters
processed); `none` when formatting hit undefined behaviour. -/
def printk_color (qual0 : Char) (FRcolor BKcolor : Nat) (fmt : List Char)
    (args : List Arg) (pos : ScreenInfo) :
    Option (ScreenInfo × List RenderCall × Int) :=
  match vsprintf qual0 fmt args with
  | none => none
  | some buf =>
    let r := printkChars FRcolor BKcolor buf pos
    some (r.1, r.2, (buf.length : Int))

/-! ## Geometry preservation: no console operation touches the grid bounds -/

@[simp]
theorem auto_newline_max_x (s : ScreenInfo) : (auto_newline s).max_x = s.max_x := by
  unfold auto_newline
  dsimp only []
  split <;> split <;> rfl

@[simp]
theorem auto_newline_max_y (s : ScreenInfo) : (auto_newline s).max_y = s.max_y := by
  unfold auto_newline
  dsimp only []
  split <;> split <;> rfl

@[simp]
theorem tabIter_max_x (n : Nat) (s : ScreenInfo) : (tabIter n s).1.max_x = s.max_x := by
  induction n generalizing s with
  | zero => rfl
  | succ n ih => simp [tabIter, ih]

@[simp]
theorem tabIter_max_y (n : Nat) (s : ScreenInfo) : (tabIter n s).1.max_y = s.max_y := by
  induction n generalizing s with
  | zero => rfl
  | succ n ih => simp [tabIter, ih]

@[simp]
theorem printkStep_max_x (FR BK : Nat) (c : Char) (s : ScreenInfo) :
    (printkStep FR BK c s).1.max_x = s.max_x := by
  unfold printkStep
  split
  · rfl
  · split
    · simp
    · split
      · simp
        split
        · split <;> rfl
        · rfl
      · simp

@[simp]
theorem printkStep_max_y (FR BK : Nat) (c : Char) (s : ScreenInfo) :
    (printkStep FR BK c s).1.max_y = s.max_y := by
  unfold printkStep
  split
  · rfl
  · split
    · simp
    · split
      · simp
        split
        · split <;> rfl
        · rfl
      · simp

/-! ## Cursor bounds -/

/-- After `auto_newline`, the cursor is inside the grid — from any starting
column `≥ 0` and row `≥ 0` (the row check `if (pos.y > pos.max_y) pos.y = 0;`
is unconditional). -/
theorem auto_newline_bounds (s : ScreenInfo) (hmx : 0 ≤ s.max_x)
    (hmy : 0 ≤ s.max_y) (hx : 0 ≤ s.x) (hy : 0 ≤ s.y) :
    0 ≤ (auto_newline s).x ∧ (auto_newline s).x ≤ s.max_x ∧
      0 ≤ (auto_newline s).y ∧ (auto_newline s).y ≤ s.max_y := by
  unfold auto_newline
  dsimp only []
  split <;> split <;> (simp_all; try omega)

/-- Bounds through the tab loop: the cursor stays in the column range and,
as soon as at least one space is printed, inside the row range too. -/
theorem tabIter_bounds (n : Nat) (s : ScreenInfo) (hmx : 0 ≤ s.max_x)
    (hmy : 0 ≤ s.max_y) (hx0 : 0 ≤ s.x) (hx1 : s.x ≤ s.max_x) (hy0 : 0 ≤ s.y) :
    (0 ≤ (tabIter n s).1.x ∧ (tabIter n s).1.x ≤ s.max_x ∧
      0 ≤ (tabIter n s).1.y) ∧
    (1 ≤ n → (tabIter n s).1.y ≤ s.max_y) := by
  induction n generalizing s with
  | zero =>
    simp [tabIter]
    omega
  | succ n ih =>
    have h1 := auto_newline_bounds { s with x := s.x + 1 }
      (by simpa using hmx) (by simpa using hmy) (by simp; omega) (by simpa using hy0)
    simp only [tabIter]
    rcases n with - | m
    · exact ⟨⟨h1.1, h1.2.1, h1.2.2.1⟩, fun _ => h1.2.2.2⟩
    · have h2 := ih (auto_newline { s with x := s.x + 1 })
        (by simpa using hmx) (by simpa using hmy)
        (by simpa using h1.1) (by simpa using h1.2.1) (by simpa using h1.2.2.1)
      constructor
      · simpa using h2.1
      · intro _
        simpa using h2.2 (by omega)

/-- Bounds through one character of the `printk_color` loop: from a cursor
inside the grid, every character leaves `0 ≤ x ≤ max_x` and `0 ≤ y`, and
every character except `'\n'` also restores `y ≤ max_y` (the `'\n'` branch
performs no wrap check at all). -/
theorem printkStep_bounds (FR BK : Nat) (c : Char) (s : ScreenInfo)
    (hmx : 0 ≤ s.max_x) (hmy : 0 ≤ s.max_y) (hx0 : 0 ≤ s.x)
    (hx1 : s.x ≤ s.max_x) (hy0 : 0 ≤ s.y) :
    (0 ≤ (printkStep FR BK c s).1.x ∧ (printkStep FR BK c s).1.x ≤ s.max_x ∧
      0 ≤ (printkStep FR BK c s).1.y) ∧
    (c ≠ Char.ofNat 10 → (printkStep FR BK c s).1.y ≤ s.max_y) := by
  unfold printkStep
  split
  · next hc =>
    exact ⟨⟨by simp, by simpa using hmx, by simp; omega⟩, fun hne => absurd hc hne⟩
  · split
    · -- '\t'
      have hm0 : 0 ≤ Int.tmod s.x 8 := Int.tmod_nonneg _ hx0
      have hm1 : Int.tmod s.x 8 < 8 := Int.tmod_lt_of_pos _ (by norm_num)
      have hn : 1 ≤ (8 - Int.tmod s.x 8).toNat := by omega
      have h := tabIter_bounds (8 - Int.tmod s.x 8).toNat s hmx hmy hx0 hx1 hy0
      exact ⟨h.1, fun _ => h.2 hn⟩
    · split
      · -- '\b'
        unfold auto_newline
        refine ⟨⟨?_, ?_, ?_⟩, fun _ => ?_⟩ <;>
          (dsimp only []; split_ifs <;> (simp_all; try omega))
      · -- printable
        unfold auto_newline
        refine ⟨⟨?_, ?_, ?_⟩, fun _ => ?_⟩ <;>
          (dsimp only []; split_ifs <;> (simp_all; try omega))

/-- Bounds through the whole character loop: the column always ends inside
`[0, max_x]` and the row nonnegative; when the last processed character is
not `'\n'`, the row also ends inside `[0, max_y]`. -/
theorem printkChars_bounds (FR BK : Nat) (cs : List Char) (s : ScreenInfo)
    (hmx : 0 ≤ s.max_x) (hmy : 0 ≤ s.max_y) (hx0 : 0 ≤ s.x)
    (hx1 : s.x ≤ s.max_x) (hy0 : 0 ≤ s.y) :
    (0 ≤ (printkChars FR BK cs s).1.x ∧
      (printkChars FR BK cs s).1.x ≤ s.max_x ∧
      0 ≤ (printkChars FR BK cs s).1.y) ∧
    (cs ≠ [] → cs.getLast? ≠ some (Char.ofNat 10) →
      (printkChars FR BK cs s).1.y ≤ s.max_y) := by
  induction cs generalizing s with
  | nil => exact ⟨⟨hx0, hx1, hy0⟩, fun h => absurd rfl h⟩
  | cons c cs ih =>
    have hstep := printkStep_bounds FR BK c s hmx hmy hx0 hx1 hy0
    have hgx := printkStep_max_x FR BK c s
    have hgy := printkStep_max_y FR BK c s
    rcases cs with - | ⟨c2, cs2⟩
    · -- a single character: the loop is exactly one step
      refine ⟨?_, fun _ hlast => ?_⟩
      · simpa [printkChars] using hstep.1
      · have hc : c ≠ Char.ofNat 10 := by
          simpa using hlast
        simpa [printkChars] using hstep.2 hc
    · -- at least two characters: recurse on the tail
      have ih' := ih (printkStep FR BK c s).1 (by omega) (by omega)
        hstep.1.1 (by omega) hstep.1.2.2
      refine ⟨?_, fun _ hlast => ?_⟩
      · simpa [printkChars, hgx] using ih'.1
      · have hlast' : (c2 :: cs2).getLast? ≠ some (Char.ofNat 10) := by
          simpa [List.getLast?_cons_cons] using hlast
        simpa [printkChars, hgy] using ih'.2 (by simp) hlast'

/-- C1 (amended): after `printk_color` completes from a cursor inside the
grid, the column always satisfies `0 ≤ x ≤ max_x` and the row `0 ≤ y`; the
row bound `y ≤ max_y` is guaranteed only when the formatted buffer does not
end in `'\n'` — the `'\n'` branch performs no wrap, so a buffer ending in a
newline started at `y = max_y` leaves `y = max_y + 1`, out of bounds. -/
theorem C1_cursor_invariant (qual0 : Char) (FR BK : Nat) (fmt : List Char)
    (args : List Arg) (s : ScreenInfo) (t : ScreenInfo × List RenderCall × Int)
    (hmx : 0 ≤ s.max_x) (hmy : 0 ≤ s.max_y) (hx0 : 0 ≤ s.x)
    (hx1 : s.x ≤ s.max_x) (hy0 : 0 ≤ s.y) (hy1 : s.y ≤ s.max_y)
    (ht : printk_color qual0 FR BK fmt args s = some t) :
    (0 ≤ t.1.x ∧ t.1.x ≤ s.max_x ∧ 0 ≤ t.1.y) ∧
    (∀ buf, vsprintf qual0 fmt args = some buf →
      buf.getLast? ≠ some (Char.ofNat 10) → t.1.y ≤ s.max_y) := by
  unfold printk_color at ht
  cases hv : vsprintf qual0 fmt args with
  | none => rw [hv] at ht; exact absurd ht (by simp)
  | some buf =>
    rw [hv] at ht
    have hbuf := printkChars_bounds FR BK buf s hmx hmy hx0 hx1 hy0
    have ht1 : t.1 = (printkChars FR BK buf s).1 := by
      cases ht; rfl
    refine ⟨by rw [ht1]; exact hbuf.1, fun buf' hbuf' hlast => ?_⟩
    cases hbuf'
    rcases hempty : buf with - | ⟨c, cs⟩
    · subst hempty
      simpa [printkChars, ht1] using hy1
    · rw [hempty] at hbuf hlast
      rw [ht1, hempty]
      exact hbuf.2 (by simp) hlast

/-- C1 (counterexample): on a 16×16 screen with 8×8 glyphs (`max_x = max_y =
2`), printing the template `"\n"` from the admitted cursor `(0, max_y)`
leaves `y = 3 > max_y` — the claimed invariant `y ≤ max_y` fails after a
public operation. -/
theorem C1_counterexample :
    (printk_color 'h' 3 4 [Char.ofNat 10] []
        (set_printk_pos 0 2 (init_printk 16 16 0 1024 8 8).1).2).map
      (fun t => (t.1.y, t.1.max_y)) = some (3, 2) ∧ ¬((3 : Int) ≤ 2) :=
  ⟨by decide, by decide⟩

/-- Start state for the C1 witness: a freshly initialized 16×16 screen. -/
def C1start : ScreenInfo :=
  (init_printk 16 16 0 1024 8 8).1

/-- Result of `printk_color "ab"` on `C1start`. -/
def C1result : ScreenInfo × List RenderCall × Int :=
  (⟨16, 16, 8, 8, 2, 2, 2, 0, 0, 1024⟩,
   [⟨0, 0, 3, 4, 'a'⟩, ⟨8, 0, 3, 4, 'b'⟩], 2)

/-- Witness for C1 (amended): the hypotheses hold at a concrete screen and
template, and the invariant conclusion follows. -/
theorem C1_cursor_invariant_witness :
    (0 ≤ C1start.max_x ∧ 0 ≤ C1start.max_y ∧ 0 ≤ C1start.x ∧
      C1start.x ≤ C1start.max_x ∧ 0 ≤ C1start.y ∧ C1start.y ≤ C1start.max_y ∧
      printk_color 'h' 3 4 ['a', 'b'] [] C1start = some C1result) ∧
    (0 ≤ C1result.1.x ∧ C1result.1.x ≤ C1start.max_x ∧ 0 ≤ C1result.1.y) ∧
    C1result.1.y ≤ C1start.max_y := by
  refine ⟨by decide, ?_, ?_⟩
  · exact (C1_cursor_invariant 'h' 3 4 ['a', 'b'] [] C1start C1result
      (by decide) (by decide) (by decide) (by decide) (by decide) (by decide)
      (by decide)).1
  · exact (C1_cursor_invariant 'h' 3 4 ['a', 'b'] [] C1start C1result
      (by decide) (by decide) (by decide) (by decide) (by decide) (by decide)
      (by decide)).2 ['a', 'b'] (by decide) (by decide)

/-- C2 (counterexample): `%p` with unspecified width (`field_width = -1`)
formats the pointer `255` as the bare hex digits `"FF"` — not as 16
zero-padded digits, because the default-width test in the source compares
the field width against `0`, not against the "unspecified" value `-1`. -/
theorem C2_counterexample :
    vsprintf 'h' ['%', 'p'] [Arg.val 255] = some ['F', 'F'] ∧
    (['F', 'F'] : List Char).length ≠ 16 :=
  ⟨by decide, by decide⟩

/-- C2 (amended): the `%p` default (field width `2 * sizeof(void *) = 16`
with zero-padding) is applied exactly when the parsed field width equals
`0` — reachable only through `%*p` with a width argument of `0` — and not
when the width is unspecified (`-1`), which formats the pointer with no
padding at all. -/
theorem C2_pointer_width_default (qual0 : Char) (v : Nat) :
    vsprintf qual0 ['%', 'p'] [Arg.val v] =
      write_num [] (toInt64 v) 16 (-1) (-1) flags0 ∧
    vsprintf qual0 ['%', '*', 'p'] [Arg.val 0, Arg.val v] =
      write_num [] (toInt64 v) 16 16 (-1) { flags0 with padZero := true } :=
  ⟨rfl, rfl⟩

/-- C3 (failing input): `%lu` of the unsigned value `2^63 + 1 =
9223372036854775809` prints `"9223372036854775807"`, the decimal digits of
`2^64 - v` — the unsigned argument is passed through `write_num`'s signed
`long long` parameter and run through `ABS`, so any `v ≥ 2^63` prints the
wrong value. -/
theorem C3_unsigned_long_misprint :
    vsprintf 'h' ['%', 'l', 'u'] [Arg.val (2 ^ 63 + 1)] =
      some "9223372036854775807".toList ∧
    "9223372036854775807".toList ≠ "9223372036854775809".toList :=
  ⟨by decide, by decide⟩

/-- C5 (counterexample): in `"%ld%d"`, the `l` qualifier of the first
directive persists into the second — the plain `%d` fetches a full 64-bit
argument and prints `4294967303` instead of the 32-bit `7`, so the output is
`"54294967303"` rather than `"57"`. -/
theorem C5_counterexample :
    vsprintf 'h' ['%', 'l', 'd', '%', 'd'] [Arg.val 5, Arg.val (2 ^ 32 + 7)] =
      some "54294967303".toList ∧
    (some "54294967303".toList : Option (List Char)) ≠ some "57".toList :=
  ⟨by decide, by decide⟩

/-- C5 (amended): the flag set, field width and precision are re-initialized
for every directive, but the length qualifier is not — a directive without a
qualifier character reuses the qualifier left by the previous directive
(initially the indeterminate startup value of the uninitialized local). -/
theorem C5_qualifier_persists (qual0 : Char) :
    vsprintf qual0 ['%', 'l', 'd', '%', 'd'] [Arg.val 5, Arg.val (2 ^ 32 + 7)] =
      some "54294967303".toList ∧
    vsprintf qual0 ['%', '0', '5', 'd', '%', 'd'] [Arg.val 42, Arg.val 7] =
      some "000427".toList ∧
    vsprintf qual0 ['%', '.', '1', 's', '%', 's']
        [Arg.str (some ['a', 'b', 'c']), Arg.str (some ['a', 'b', 'c'])] =
      some "aabc".toList := by
  by_cases h : qual0 = 'l'
  · subst h; exact ⟨by decide, by decide, by decide⟩
  · refine ⟨?_, ?_, ?_⟩ <;>
      simp [vsprintf, vsLoop, flagLoop, parseWidthPrec, vsDispatch, write_num,
        whileDec, preDec, whileLtDec, skip_and_atoi, fmtAt, is_digit, flags0,
        toInt32, toInt64, wrap32, wrap64, digitLoop, digitLoopF, digitsUpper,
        digitsLower, ABS, vaFetch, vaFetchStr, strlen, h]

/-- C6 (failing input): `%s` with a null `char *` argument runs into
undefined behaviour — the guard `if (!s) s = '\0';` assigns the null pointer
again (the character literal `'\0'` is the integer `0`), so `strlen` is
called on the null pointer and dereferences address 0. -/
theorem C6_null_string_strlen :
    vsprintf 'h' ['%', 's'] [Arg.str none] = none := by
  decide

/-- C7 (counterexample): a template truncated right after `%` emits nothing
for the directive — `"abc%"` formats to `"abc"`, not `"abc%"`: the flag loop
sees the terminator, sets `flag_break` and leaves the parse loop without
writing the `%`. -/
theorem C7_counterexample :
    vsprintf 'h' ['a', 'b', 'c', '%'] [] = some ['a', 'b', 'c'] ∧
    (some ['a', 'b', 'c'] : Option (List Char)) ≠ some ['a', 'b', 'c', '%'] :=
  ⟨by decide, by decide⟩

/-- C7 (amended): a directive truncated right after the `%` (or inside its
flags) emits nothing; the preceding literal text is preserved. -/
theorem C7_truncated_directive (qual0 : Char) (args : List Arg) :
    vsprintf qual0 ['a', 'b', 'c', '%'] args = some ['a', 'b', 'c'] ∧
    vsprintf qual0 ['a', 'b', 'c', '%', '-'] args = some ['a', 'b', 'c'] :=
  ⟨rfl, rfl⟩

/-- C8: `set_printk_pos x y` succeeds (returns `0` and moves the cursor to
`(x, y)`) exactly when `0 ≤ x ≤ max_x` and `0 ≤ y ≤ max_y`; otherwise it
returns `EPOS_OVERFLOW` and leaves the screen state unchanged. -/
theorem C8_set_printk_pos_spec (x y : Int) (s : ScreenInfo) :
    (((0 ≤ x ∧ x ≤ s.max_x) ∧ (0 ≤ y ∧ y ≤ s.max_y)) →
      set_printk_pos x y s = (0, { s with x := x, y := y })) ∧
    (¬((0 ≤ x ∧ x ≤ s.max_x) ∧ (0 ≤ y ∧ y ≤ s.max_y)) →
      set_printk_pos x y s = (EPOS_OVERFLOW, s)) ∧
    ((set_printk_pos x y s).1 = 0 ↔
      ((0 ≤ x ∧ x ≤ s.max_x) ∧ (0 ≤ y ∧ y ≤ s.max_y))) := by
  unfold set_printk_pos
  split_ifs with h
  · refine ⟨fun _ => rfl, fun hn => absurd ⟨⟨h.1.1, h.1.2⟩, h.2.1, h.2.2⟩ hn,
      fun _ => ⟨⟨h.1.1, h.1.2⟩, h.2.1, h.2.2⟩, fun _ => rfl⟩
  · refine ⟨fun hp => absurd ⟨⟨hp.1.1, hp.1.2⟩, hp.2.1, hp.2.2⟩ h,
      fun _ => rfl, ?_, fun hp => absurd ⟨⟨hp.1.1, hp.1.2⟩, hp.2.1, hp.2.2⟩ h⟩
    intro h0
    exact absurd h0 (by norm_num [EPOS_OVERFLOW])

/-- Witness for C8: the in-bounds call `set_printk_pos 1 2` succeeds on a
16×16 screen, and the out-of-bounds call `set_printk_pos 3 0` fails with
`EPOS_OVERFLOW`, leaving the state unchanged. -/
theorem C8_set_printk_pos_spec_witness :
    set_printk_pos 1 2 (init_printk 16 16 0 1024 8 8).1 =
      (0, { (init_printk 16 16 0 1024 8 8).1 with x := 1, y := 2 }) ∧
    set_printk_pos 3 0 (init_printk 16 16 0 1024 8 8).1 =
      (EPOS_OVERFLOW, (init_printk 16 16 0 1024 8 8).1) :=
  ⟨(C8_set_printk_pos_spec 1 2 (init_printk 16 16 0 1024 8 8).1).1 (by decide),
   (C8_set_printk_pos_spec 3 0 (init_printk 16 16 0 1024 8 8).1).2.1 (by decide)⟩

/-- C9: signed decimal 42 with field width 5 is right-aligned space-padded
`"   42"`; with the left-align flag `"42   "`; with the zero-pad flag
`"00042"` — for every value of the indeterminate initial qualifier. -/
theorem C9_decimal_width_examples (qual0 : Char) :
    vsprintf qual0 ['%', '5', 'd'] [Arg.val 42] = some "   42".toList ∧
    vsprintf qual0 ['%', '-', '5', 'd'] [Arg.val 42] = some "42   ".toList ∧
    vsprintf qual0 ['%', '0', '5', 'd'] [Arg.val 42] = some "00042".toList := by
  by_cases h : qual0 = 'l'
  · subst h; exact ⟨by decide, by decide, by decide⟩
  · refine ⟨?_, ?_, ?_⟩ <;>
      simp [vsprintf, vsLoop, flagLoop, parseWidthPrec, vsDispatch, write_num,
        whileDec, preDec, whileLtDec, skip_and_atoi, fmtAt, is_digit, flags0,
        toInt32, toInt64, wrap32, wrap64, digitLoop, digitLoopF, digitsUpper,
        digitsLower, ABS, vaFetch, vaFetchStr, strlen, h]

/-- C4 (counterexample): backspace at `(0, 1)` renders at cell `(0, 0)`
(pixel `(0, 0)` on an 8×8-glyph screen), not at `(max_x, 0)` (pixel
`(16, 0)`): the code resets both coordinates to the origin whenever the
decremented row is `≤ 0`, i.e. already from row 1. -/
theorem C4_counterexample :
    (printk_color 'h' 3 4 [Char.ofNat 8] []
        (set_printk_pos 0 1 (init_printk 16 16 0 1024 8 8).1).2).map
      (fun t => t.2.1.map fun r => (r.x_px, r.y_px)) = some [(0, 0)] ∧
    (((0 : Int), (0 : Int)) ≠ ((16 : Int), (0 : Int))) :=
  ⟨by decide, by decide⟩

/-- C4 (amended): backspace at column 0 moves to the end of the previous row
`(max_x, y-1)` only when the decremented row is still positive, i.e. when
`y ≥ 2`; from row 0 or row 1 both coordinates reset to `(0, 0)`.  In both
cases a space glyph is rendered at the new position and the column advances
by 1 with the wrap applied. -/
theorem C4_backspace_rule (FR BK : Nat) (s : ScreenInfo) (hx : s.x = 0) :
    (2 ≤ s.y →
      (printkStep FR BK (Char.ofNat 8) s).2 =
        [⟨s.max_x * s.char_size_x, (s.y - 1) * s.char_size_y, FR, BK, ' '⟩] ∧
      (printkStep FR BK (Char.ofNat 8) s).1 =
        auto_newline { s with x := s.max_x + 1, y := s.y - 1 }) ∧
    (s.y ≤ 1 →
      (printkStep FR BK (Char.ofNat 8) s).2 = [⟨0, 0, FR, BK, ' '⟩] ∧
      (printkStep FR BK (Char.ofNat 8) s).1 =
        auto_newline { s with x := 1, y := 0 }) := by
  unfold printkStep
  rw [if_neg (by decide), if_neg (by decide), if_pos rfl]
  refine ⟨fun h2 => ?_, fun h1 => ?_⟩ <;>
    (dsimp only []; rw [hx]; split_ifs <;> (constructor <;> simp_all <;> ring_nf) <;> omega)

/-- Witness for C4 (amended): at the concrete cursor `(0, 2)` of a 16×16
screen the hypotheses hold, backspace renders at cell `(max_x, 1)` and the
cursor wraps from `(max_x + 1, 1)`. -/
theorem C4_backspace_rule_witness :
    ((set_printk_pos 0 2 (init_printk 16 16 0 1024 8 8).1).2.x = 0 ∧
      2 ≤ (set_printk_pos 0 2 (init_printk 16 16 0 1024 8 8).1).2.y) ∧
    (printkStep 3 4 (Char.ofNat 8)
        (set_printk_pos 0 2 (init_printk 16 16 0 1024 8 8).1).2).2 =
      [⟨16, 8, 3, 4, ' '⟩] := by
  refine ⟨by decide, ?_⟩
  have h := (C4_backspace_rule 3 4
    (set_printk_pos 0 2 (init_printk 16 16 0 1024 8 8).1).2 (by decide)).1
    (by decide)
  rw [h.1]
  decide

/-- Division bound behind C10: for `0 ≤ a` and `0 < b`, the truncated
quotient satisfies `a ≤ (a tdiv b) * b + (b - 1)` and is nonnegative —
the grid bound `max_x = width / char_size_x` leaves the cell starting at
column `max_x * char_size_x` ending at or past column `width`. -/
theorem tdiv_grid_bound (a b : Int) (ha : 0 ≤ a) (hb : 0 < b) :
    a ≤ a.tdiv b * b + (b - 1) ∧ 0 ≤ a.tdiv b := by
  obtain ⟨m, rfl⟩ := Int.eq_ofNat_of_zero_le ha
  obtain ⟨n, rfl⟩ := Int.eq_ofNat_of_zero_le hb.le
  have hn : 0 < n := by exact_mod_cast hb
  have htd : Int.tdiv (m : Int) (n : Int) = ((m / n : Nat) : Int) := rfl
  rw [htd]
  have h1 : n * (m / n) + m % n = m := Nat.div_add_mod m n
  have h2 : m % n < n := Nat.mod_lt _ hn
  have h1' : ((n : Int)) * ((m / n : Nat) : Int) + ((m % n : Nat) : Int) = (m : Int) := by
    exact_mod_cast h1
  have h2' : ((m % n : Nat) : Int) < (n : Int) := by exact_mod_cast h2
  constructor
  · nlinarith [h1', h2']
  · positivity

/-- C10: with `max_x = width / char_size_x` (truncating division) and the
cell column `max_x` admitted by `set_printk_pos`, rendering a glyph at cell
`(max_x, max_y)` writes a pixel whose x-offset `max_x * char_size_x +
(char_size_x - 1)` reaches at least `width` — past the visible row — and
whose linear framebuffer offset reaches at least `width * height`, past the
framebuffer extent; the offending offset is among the offsets `putchar`
writes. -/
theorem C10_glyph_overflow (width height : Int) (FB : Nat) (FBlen csx csy : Int)
    (hw : 0 ≤ width) (hh : 0 ≤ height) (hcx : 0 < csx) (hcy : 0 < csy) :
    (set_printk_pos ((init_printk width height FB FBlen csx csy).1).max_x
        ((init_printk width height FB FBlen csx csy).1).max_y
        (init_printk width height FB FBlen csx csy).1).1 = 0 ∧
    width ≤ ((init_printk width height FB FBlen csx csy).1).max_x * csx +
      (csx - 1) ∧
    (width * (((init_printk width height FB FBlen csx csy).1).max_y * csy +
        (csy - 1)) +
      (((init_printk width height FB FBlen csx csy).1).max_x * csx +
        (csx - 1))) ∈
      putchar_offsets width
        (((init_printk width height FB FBlen csx csy).1).max_x * csx)
        (((init_printk width height FB FBlen csx csy).1).max_y * csy) csx csy ∧
    width * height ≤
      width * (((init_printk width height FB FBlen csx csy).1).max_y * csy +
        (csy - 1)) +
      (((init_printk width height FB FBlen csx csy).1).max_x * csx +
        (csx - 1)) := by
  have hsx : ((init_printk width height FB FBlen csx csy).1).max_x =
    Int.tdiv width csx := rfl
  have hsy : ((init_printk width height FB FBlen csx csy).1).max_y =
    Int.tdiv height csy := rfl
  obtain ⟨hA, hB⟩ := tdiv_grid_bound width csx hw hcx
  obtain ⟨hC, hD⟩ := tdiv_grid_bound height csy hh hcy
  refine ⟨?_, ?_, ?_, ?_⟩
  · unfold set_printk_pos
    rw [if_neg (not_not_intro ⟨⟨by rw [hsx]; exact hB, le_rfl⟩,
      by rw [hsy]; exact hD, le_rfl⟩)]
  · rw [hsx]
    exact hA
  · unfold putchar_offsets
    have hb1 : (csy - 1).toNat < csy.toNat := by omega
    have hb2 : (csx - 1).toNat < csx.toNat := by omega
    have e1 : (((csy - 1).toNat : Nat) : Int) = csy - 1 := Int.toNat_of_nonneg (by omega)
    have e2 : (((csx - 1).toNat : Nat) : Int) = csx - 1 := Int.toNat_of_nonneg (by omega)
    refine List.mem_flatMap.mpr ⟨(csy - 1).toNat, List.mem_range.mpr hb1, ?_⟩
    dsimp only []
    refine List.mem_map.mpr ⟨(csx - 1).toNat, List.mem_range.mpr hb2, ?_⟩
    rw [e1, e2]
    ring
  · rw [hsx, hsy]
    have h5 : width * height ≤ width * (Int.tdiv height csy * csy + (csy - 1)) :=
      mul_le_mul_of_nonneg_left hC hw
    have h6 : 0 ≤ Int.tdiv width csx * csx := mul_nonneg hB hcx.le
    linarith

/-- Witness for C10: on the 16×16 screen with 8×8 glyphs the hypotheses hold
and the overflow conclusion follows (`max_x = 2`, cell column 2 starts at
pixel 16 = width). -/
theorem C10_glyph_overflow_witness :
    ((0 : Int) ≤ 16 ∧ (0 : Int) < 8) ∧
    ((set_printk_pos ((init_printk 16 16 0 1024 8 8).1).max_x
        ((init_printk 16 16 0 1024 8 8).1).max_y
        (init_printk 16 16 0 1024 8 8).1).1 = 0 ∧
     (16 : Int) ≤ ((init_printk 16 16 0 1024 8 8).1).max_x * 8 + (8 - 1) ∧
     (16 * (((init_printk 16 16 0 1024 8 8).1).max_y * 8 + (8 - 1)) +
       (((init_printk 16 16 0 1024 8 8).1).max_x * 8 + (8 - 1))) ∈
       putchar_offsets 16 (((init_printk 16 16 0 1024 8 8).1).max_x * 8)
         (((init_printk 16 16 0 1024 8 8).1).max_y * 8) 8 8 ∧
     (16 : Int) * 16 ≤
       16 * (((init_printk 16 16 0 1024 8 8).1).max_y * 8 + (8 - 1)) +
       (((init_printk 16 16 0 1024 8 8).1).max_x * 8 + (8 - 1))) :=
  ⟨⟨by decide, by decide⟩,
   C10_glyph_overflow 16 16 0 1024 8 8 (by decide) (by decide) (by decide)
     (by decide)⟩
